import Mathlib

/-!
Verification of the contract-clause-extraction pipeline.

Strings are modelled as `List Char` (Python `str`), so that the character-level
operations used by the source (`str.find`, `str.rfind`, slicing, `str.split`,
`str.strip`, substring tests) become ordinary list functions. Python dicts of
heterogeneous JSON-like values are modelled by the inductive type `Json`.

The source files embedded here:
  app/services/llm_service.py        (LLMService)
  app/services/pdf_processor.py      (PDFProcessor)
  app/services/extraction_service.py (ExtractionService)

External collaborators (OpenAI / Gemini transports, PyPDF2 page decoding, the
SQLAlchemy session) are passed in as explicit function / data parameters.
-/

/-- The set of characters Python `str.split()` / `str.strip()` treat as
whitespace (ASCII portion). -/
def pyIsSpace (c : Char) : Bool :=
  c == ' ' || c == '\t' || c == '\n' || c == '\x0d' || c == '\x0b' || c == '\x0c'

/-- Python `str.strip()`: remove leading and trailing whitespace. -/
def pyStrip (l : List Char) : List Char :=
  ((l.dropWhile pyIsSpace).reverse.dropWhile pyIsSpace).reverse

/-- Helper for `pySplit`: `acc` holds the chars of the current word, reversed. -/
def pySplitAux : List Char → List Char → List (List Char)
  | acc, [] => if acc.isEmpty then [] else [acc.reverse]
  | acc, c :: cs =>
    if pyIsSpace c then
      if acc.isEmpty then pySplitAux [] cs else acc.reverse :: pySplitAux [] cs
    else
      pySplitAux (c :: acc) cs

/-- Python `str.split()` with no separator: split on runs of whitespace,
discarding empty pieces. -/
def pySplit (l : List Char) : List (List Char) :=
  pySplitAux [] l

/-- Python `" ".join(words)`. -/
def joinSpace (ws : List (List Char)) : List Char :=
  List.intercalate [' '] ws

/-- JSON-like values: the results of Python `json.loads`, and the shape of the
clause dictionaries the service passes around. -/
inductive Json where
  | null : Json
  | bool : Bool → Json
  | num : Int → Json
  | str : List Char → Json
  | arr : List Json → Json
  | obj : List (List Char × Json) → Json

/-- Index of the first occurrence of `c` in `l`, if any
(the defined part of Python `str.find`). -/
def pyFindNat (l : List Char) (c : Char) : Option Nat :=
  match l with
  | [] => none
  | x :: xs => if x = c then some 0 else (pyFindNat xs c).map (· + 1)

/-- Python `str.find`: first index of `c`, or `-1`. -/
def pyFind (l : List Char) (c : Char) : Int :=
  (pyFindNat l c).elim (-1) (fun i => (i : Int))

/-- Index of the last occurrence of `c` in `l`, if any
(the defined part of Python `str.rfind`). -/
def pyRfindNat (l : List Char) (c : Char) : Option Nat :=
  (pyFindNat l.reverse c).map (fun i => l.length - 1 - i)

/-- Python `str.rfind`: last index of `c`, or `-1`. -/
def pyRfind (l : List Char) (c : Char) : Int :=
  (pyRfindNat l c).elim (-1) (fun i => (i : Int))

/-- Normalise a Python slice endpoint against a list of length `n`:
negative indices count from the end, out-of-range indices are clamped. -/
def pyNormIdx (n : Nat) (i : Int) : Nat :=
  (max 0 (if i < 0 then (n : Int) + i else min i (n : Int))).toNat

/-- Python slice `l[a:b]` (step 1). -/
def pySlice (l : List Char) (a b : Int) : List Char :=
  (l.take (pyNormIdx l.length b)).drop (pyNormIdx l.length a)

/-- JSON whitespace (the only whitespace `json.loads` skips between tokens). -/
def jsonWsChar (c : Char) : Bool :=
  c == ' ' || c == '\t' || c == '\n' || c == '\x0d'

/-- Skip JSON whitespace. -/
def skipJsonWs (l : List Char) : List Char :=
  l.dropWhile jsonWsChar

/-- Decode a JSON string escape character (`\u` escapes are not modelled). -/
def jsonEscChar (e : Char) : Option Char :=
  if e = '"' then some '"'
  else if e = '\\' then some '\\'
  else if e = '/' then some '/'
  else if e = 'n' then some '\n'
  else if e = 't' then some '\t'
  else if e = 'r' then some '\x0d'
  else if e = 'b' then some '\x08'
  else if e = 'f' then some '\x0c'
  else none

/-- Parse the body of a JSON string (after the opening quote), returning the
decoded characters and the rest of the input after the closing quote. -/
def parseJsonStr : List Char → Option (List Char × List Char)
  | [] => none
  | '"' :: rest => some ([], rest)
  | '\\' :: rest =>
    match rest with
    | [] => none
    | e :: rest' =>
      match jsonEscChar e with
      | none => none
      | some c =>
        match parseJsonStr rest' with
        | none => none
        | some (s, r) => some (c :: s, r)
  | c :: rest =>
    match parseJsonStr rest with
    | none => none
    | some (s, r) => some (c :: s, r)

/-- Fold a digit run into a natural number. -/
def digitsToNat (ds : List Char) : Nat :=
  ds.foldl (fun n c => n * 10 + (c.toNat - 48)) 0

/-- Parse a run of decimal digits (JSON number fractions/exponents and leading
zeros are not modelled: the pipeline only passes integer page numbers). -/
def parseJsonDigits (l : List Char) : Option (Nat × List Char) :=
  let ds := l.takeWhile Char.isDigit
  if ds.isEmpty then none else some (digitsToNat ds, l.drop ds.length)

mutual

/-- Fuel-bounded parser for a single JSON value; returns the value and the
remaining input. Models the grammar accepted by Python `json.loads`
(restricted to integer numerals and `\u`-free strings). -/
def parseJsonVal : Nat → List Char → Option (Json × List Char)
  | 0, _ => none
  | fuel + 1, l =>
    match skipJsonWs l with
    | [] => none
    | 'n' :: rest =>
      if ("ull".toList).isPrefixOf rest then some (.null, rest.drop 3) else none
    | 't' :: rest =>
      if ("rue".toList).isPrefixOf rest then some (.bool true, rest.drop 3) else none
    | 'f' :: rest =>
      if ("alse".toList).isPrefixOf rest then some (.bool false, rest.drop 4) else none
    | '"' :: rest =>
      match parseJsonStr rest with
      | none => none
      | some (s, r) => some (.str s, r)
    | '-' :: rest =>
      match parseJsonDigits rest with
      | none => none
      | some (n, r) => some (.num (-(n : Int)), r)
    | '[' :: rest =>
      match skipJsonWs rest with
      | ']' :: r2 => some (.arr [], r2)
      | rest' =>
        match parseJsonItems fuel rest' with
        | none => none
        | some (xs, r) => some (.arr xs, r)
    | '\x7b' :: rest =>
      match skipJsonWs rest with
      | '\x7d' :: r2 => some (.obj [], r2)
      | rest' =>
        match parseJsonFields fuel rest' with
        | none => none
        | some (fs, r) => some (.obj fs, r)
    | c :: rest =>
      if c.isDigit then
        match parseJsonDigits (c :: rest) with
        | none => none
        | some (n, r) => some (.num (n : Int), r)
      else none

/-- Fuel-bounded parser for the items of a non-empty JSON array, consuming the
closing bracket. -/
def parseJsonItems : Nat → List Char → Option (List Json × List Char)
  | 0, _ => none
  | fuel + 1, l =>
    match parseJsonVal fuel l with
    | none => none
    | some (v, r) =>
      match skipJsonWs r with
      | ']' :: r2 => some ([v], r2)
      | ',' :: r2 =>
        match parseJsonItems fuel r2 with
        | none => none
        | some (vs, r3) => some (v :: vs, r3)
      | _ => none

/-- Fuel-bounded parser for the fields of a non-empty JSON object, consuming
the closing brace. -/
def parseJsonFields : Nat → List Char → Option (List (List Char × Json) × List Char)
  | 0, _ => none
  | fuel + 1, l =>
    match skipJsonWs l with
    | '"' :: rest =>
      match parseJsonStr rest with
      | none => none
      | some (k, r) =>
        match skipJsonWs r with
        | ':' :: r2 =>
          match parseJsonVal fuel r2 with
          | none => none
          | some (v, r3) =>
            match skipJsonWs r3 with
            | '\x7d' :: r4 => some ([(k, v)], r4)
            | ',' :: r4 =>
              match parseJsonFields fuel r4 with
              | none => none
              | some (fs, r5) => some ((k, v) :: fs, r5)
            | _ => none
        | _ => none
    | _ => none

end

/-- Python `json.loads`: parse one JSON value and require that only whitespace
remains. `none` models `json.JSONDecodeError`. -/
def jsonLoads (l : List Char) : Option Json :=
  match parseJsonVal (2 * l.length + 2) l with
  | none => none
  | some (v, rest) => if (skipJsonWs rest).isEmpty then some v else none

/-- Embedding of `LLMService._parse_llm_response` (llm_service.py lines 180-201):
locate the first `[` and the last `]`; if the slice between them decodes as
JSON, return the decoded entries, otherwise return the empty list. -/
def parseLlmResponse (resp : List Char) : List Json :=
  let start_idx : Int := pyFind resp '['
  let end_idx : Int := pyRfind resp ']' + 1
  if start_idx ≠ -1 ∧ end_idx > start_idx then
    match jsonLoads (pySlice resp start_idx end_idx) with
    | some (Json.arr xs) => xs
    | some _ => []
    | none => []
  else []

example :
    parseLlmResponse ("Sure! Here you go: [1, \"two\", null] thanks".toList) =
      [Json.num 1, Json.str ("two".toList), Json.null] := by
  rfl

example : parseLlmResponse ("no json here".toList) = [] := by rfl

example : parseLlmResponse ("broken [1, \x7d oops] end".toList) = [] := by rfl

/-- Embedding of `LLMService._mock_extraction` (llm_service.py lines 203-221):
take the first 100 whitespace-delimited words of the text and emit two fixed
clauses built from word ranges [0,30) and [30,60). -/
def mockExtraction (text : List Char) : List Json :=
  let words := (pySplit text).take 100
  [ Json.obj
      [ ("clause_type".toList, Json.str ("General Terms".toList)),
        ("content".toList,
          Json.str (if 30 ≤ words.length then joinSpace (words.take 30)
                    else joinSpace words)),
        ("page_number".toList, Json.num 1) ],
    Json.obj
      [ ("clause_type".toList, Json.str ("Obligations".toList)),
        ("content".toList,
          Json.str (if 60 ≤ words.length then joinSpace ((words.drop 30).take 30)
                    else joinSpace (words.drop 30))),
        ("page_number".toList, Json.num 1) ] ]

/-- The shared head of both extraction prompts (llm_service.py lines 147-152
and 159-164): instruction lines followed by a blank line. -/
def extractionPromptHead : List Char :=
  ("Analyze the following legal contract and extract all key clauses.\nFor each clause, provide:\n1. clause_type: The category of the clause (e.g., \"Payment Terms\", \"Confidentiality\", \"Termination\", \"Liability\", \"Governing Law\", etc.)\n2. content: The actual text of the clause\n3. page_number: The page number where the clause appears (if mentioned in the text)\n\n").toList

/-- The literal separator `_extract_with_gemini` splits the prompt on. -/
def contractTextMarker : List Char :=
  ("Contract text:").toList

/-- Embedding of `LLMService._create_extraction_prompt` (llm_service.py lines 145-155). -/
def createExtractionPrompt (text : List Char) : List Char :=
  extractionPromptHead ++ contractTextMarker ++ '\n' :: text ++ ['\n']

/-- Embedding of `LLMService._create_extraction_prompt_json` (llm_service.py lines 157-178),
the JSON-describing prompt used on the Gemini path. -/
def createExtractionPromptJson (text : List Char) : List Char :=
  extractionPromptHead ++
  ("Return the result as a JSON array of objects with these fields.\n\n").toList ++
  contractTextMarker ++ '\n' :: text ++
  ("\n\nReturn only valid JSON in this exact format:\n[\n  \x7b\n    \"clause_type\": \"string\",\n    \"content\": \"string\",\n    \"page_number\": number or null\n  \x7d\n]\n").toList

/-- The system line prepended to the Gemini prompt
(llm_service.py lines 120-122). -/
def geminiSystemHeader : List Char :=
  ("You are a legal document analyzer. Extract and categorize clauses from contracts.\n\n").toList

/-- Python `needle in haystack` substring test. -/
def containsSub (needle : List Char) : List Char → Bool
  | [] => needle.isEmpty
  | c :: rest => needle.isPrefixOf (c :: rest) || containsSub needle rest

/-- Fuel-bounded worker for Python `str.split(sep)` with a non-empty separator
`s :: ss`; `acc` holds the current piece, reversed. The fuel is at least the
input length plus one, so the fuel-exhausted branch is never reached. -/
def pySplitOnAux (s : Char) (ss : List Char) : Nat → List Char → List Char → List (List Char)
  | 0, acc, l => [acc.reverse ++ l]
  | _ + 1, acc, [] => [acc.reverse]
  | fuel + 1, acc, c :: rest =>
    if (s :: ss).isPrefixOf (c :: rest) then
      acc.reverse :: pySplitOnAux s ss fuel [] (rest.drop ss.length)
    else
      pySplitOnAux s ss fuel (c :: acc) rest

/-- Python `str.split(sep)` for a non-empty separator (Python raises on an
empty separator; that case is never exercised by the service). -/
def pySplitOn (sep l : List Char) : List (List Char) :=
  match sep with
  | [] => [l]
  | s :: ss => pySplitOnAux s ss (l.length + 1) [] l

example : pySplitOn ("ab".toList) ("xabyabz".toList) =
    ["x".toList, "y".toList, "z".toList] := by rfl

example : pySplitOn ("ab".toList) ("xyz".toList) = ["xyz".toList] := by rfl

/-- The document text `_extract_with_gemini` (llm_service.py line 119) passes
to the JSON prompt builder: piece `[1]` of the prompt split on
`"Contract text:"` when the marker occurs in the prompt, the prompt itself
otherwise. -/
def geminiPromptText (prompt : List Char) : List Char :=
  if containsSub contractTextMarker prompt then
    (pySplitOn contractTextMarker prompt).getD 1 []
  else prompt

/-- The full free-text prompt sent on the Gemini path
(llm_service.py lines 119-122). -/
def geminiFullPrompt (prompt : List Char) : List Char :=
  geminiSystemHeader ++ createExtractionPromptJson (geminiPromptText prompt)

/-- Embedding of `LLMService._extract_with_gemini` (llm_service.py lines 114-143), with the
network round trip abstracted as `transport`. -/
def extractWithGemini (transport : List Char → Except (List Char) (List Char))
    (prompt : List Char) : Except (List Char) (List Json) :=
  match transport (geminiFullPrompt prompt) with
  | .ok resp => .ok (parseLlmResponse resp)
  | .error e => .error e

/-- The error taxonomy of the pipeline (spec section 7); the source raises
`ValueError` with distinguishing messages in each case. -/
inductive PipelineError where
  | documentProcessing : List Char → PipelineError
  | unsupportedProvider : List Char → PipelineError
  | llmProvider : List Char → PipelineError
  | storage : List Char → PipelineError
deriving DecidableEq

/-- The provider-relevant fields of `app.core.config.Settings`. -/
structure Settings where
  openai_api_key : List Char
  openai_model : List Char
  gemini_api_key : List Char
  gemini_model : List Char

/-- The defaults from `app/core/config.py` (keys absent unless supplied by the
environment). -/
def defaultSettings : Settings :=
  { openai_api_key := [], openai_model := ("gpt-4.1").toList,
    gemini_api_key := [], gemini_model := ("gemini-2.5-flash").toList }

/-- The state `LLMService.__init__` leaves behind: the chosen provider, whether
a real client object exists (`self.client is not None`), and the model name. -/
structure LLMState where
  provider : List Char
  clientConfigured : Bool
  model : List Char

/-- Embedding of `LLMService.__init__` (llm_service.py lines 18-46): an empty credential
yields an unconfigured client (`None`), an unknown provider raises. -/
def initLLMService (provider : List Char) (cfg : Settings) : Except PipelineError LLMState :=
  if provider = ("openai").toList then
    .ok { provider := provider, clientConfigured := !cfg.openai_api_key.isEmpty,
          model := cfg.openai_model }
  else if provider = ("gemini").toList then
    .ok { provider := provider, clientConfigured := !cfg.gemini_api_key.isEmpty,
          model := cfg.gemini_model }
  else
    .error (.unsupportedProvider provider)

/-- Embedding of `LLMService.extract_clauses` (llm_service.py lines 48-82). The two provider
round trips are abstracted as transports; the second component records whether
any transport was invoked. Transport errors are wrapped as
`ValueError("Error calling LLM API: ...")`. -/
def extractClauses (st : LLMState)
    (openaiTransport : List Char → Except (List Char) (List Json))
    (geminiTransport : List Char → Except (List Char) (List Char))
    (text : List Char) : Except PipelineError (List Json) × Bool :=
  if !st.clientConfigured then
    (.ok (mockExtraction text), false)
  else
    let prompt := createExtractionPrompt text
    if st.provider = ("openai").toList then
      match openaiTransport prompt with
      | .ok clauses => (.ok clauses, true)
      | .error e => (.error (.llmProvider (("Error calling LLM API: ").toList ++ e)), true)
    else if st.provider = ("gemini").toList then
      match extractWithGemini geminiTransport prompt with
      | .ok clauses => (.ok clauses, true)
      | .error e => (.error (.llmProvider (("Error calling LLM API: ").toList ++ e)), true)
    else
      (.error (.llmProvider (("Error calling LLM API: Unsupported provider: ").toList ++ st.provider)), false)

/-- The page-boundary marker prepended to each page's text
(pdf_processor.py line 35). -/
def pageMarker (n : Nat) : List Char :=
  ("\n--- Page ").toList ++ (toString n).toList ++ (" ---\n").toList

/-- The accumulation loop of `extract_text_from_pdf` (pdf_processor.py lines
29-36): `text += f"\n--- Page N ---\n" + page_text` for 1-indexed pages. -/
def buildPdfTextAux (acc : List Char) (n : Nat) : List (List Char) → List Char
  | [] => acc
  | p :: ps => buildPdfTextAux (acc ++ pageMarker n ++ p) (n + 1) ps

/-- The concatenated page text of a PDF. -/
def buildPdfText (pages : List (List Char)) : List Char :=
  buildPdfTextAux [] 1 pages

/-- Embedding of `has_text = bool(text.strip())` (pdf_processor.py line 38). -/
def pdfHasText (pages : List (List Char)) : Bool :=
  !(pyStrip (buildPdfText pages)).isEmpty

/-- Bibliographic fields PyPDF2 may surface (pdf_processor.py lines 47-53). -/
structure PdfBiblio where
  title : List Char
  author : List Char
  subject : List Char
  creator : List Char

/-- The dictionary `extract_text_from_pdf` returns. -/
structure PdfData where
  text : List Char
  metadata : List (List Char × Json)

/-- Embedding of `PDFProcessor.extract_text_from_pdf` (pdf_processor.py lines 14-62) on an
already-decoded page sequence (PyPDF2 decoding is the external collaborator;
a decode failure raises before this code runs). -/
def extractTextFromPdf (pages : List (List Char)) (biblio : Option PdfBiblio) : PdfData :=
  { text := buildPdfText pages,
    metadata :=
      [ (("page_count").toList, Json.num (pages.length : Int)),
        (("has_text").toList, Json.bool (pdfHasText pages)) ] ++
      (match biblio with
       | none => []
       | some b =>
         [ (("pdf_metadata").toList, Json.obj
             [ (("title").toList, Json.str b.title),
               (("author").toList, Json.str b.author),
               (("subject").toList, Json.str b.subject),
               (("creator").toList, Json.str b.creator) ]) ]) }

/-- The persisted `Extraction` record (models/extraction.py), with
`created_at` as an abstract timestamp. -/
structure Extraction where
  document_id : List Char
  filename : List Char
  clauses : List Json
  doc_metadata : List (List Char × Json)
  created_at : Nat

/-- Embedding of `ExtractionService.process_contract` (extraction_service.py lines 31-106).
The PDF step, the LLM step and the database insert are explicit fallible
parameters; `db` is the visible storage state. On any failure the original
state is returned unchanged (the source re-raises, and rolls back on a failed
insert), mirroring that nothing is persisted before both steps succeed. -/
def processContract
    (pdfStep : List Nat → Except PipelineError PdfData)
    (llmStep : List Char → Except PipelineError (List Json))
    (insertStep : Extraction → List Extraction → Except PipelineError (List Extraction))
    (fileContent : List Nat) (filename : List Char) (provider : List Char)
    (documentId : List Char) (timestamp : List Char) (now : Nat)
    (db : List Extraction) : Except PipelineError Extraction × List Extraction :=
  match pdfStep fileContent with
  | .error e => (.error e, db)
  | .ok pdfData =>
    match llmStep pdfData.text with
    | .error e => (.error e, db)
    | .ok clauses =>
      let metadata := pdfData.metadata ++
        [ (("extraction_timestamp").toList, Json.str timestamp),
          (("clause_count").toList, Json.num (clauses.length : Int)),
          (("provider").toList, Json.str provider) ]
      let extraction : Extraction :=
        { document_id := documentId, filename := filename, clauses := clauses,
          doc_metadata := metadata, created_at := now }
      match insertStep extraction db with
      | .error e => (.error e, db)
      | .ok db' => (.ok extraction, db')

/-- Insert into a list sorted by `created_at` descending (stable: an equal
timestamp goes after existing entries). -/
def insertByCreatedDesc (x : Extraction) : List Extraction → List Extraction
  | [] => [x]
  | y :: ys =>
    if x.created_at ≤ y.created_at then y :: insertByCreatedDesc x ys
    else x :: y :: ys

/-- The storage collaborator's `ORDER BY created_at DESC`
(extraction_service.py line 149). -/
def orderByCreatedAtDesc (db : List Extraction) : List Extraction :=
  db.foldr insertByCreatedDesc []

/-- The dictionary `list_extractions` returns. -/
structure ExtractionListPage where
  total : Nat
  page : Nat
  page_size : Nat
  extractions : List Extraction

/-- Embedding of `ExtractionService.list_extractions` (extraction_service.py lines
127-157): count all records, then order by creation time descending, skip
`(page-1)*page_size` and take `page_size`. -/
def listExtractions (db : List Extraction) (page page_size : Nat) : ExtractionListPage :=
  { total := db.length,
    page := page,
    page_size := page_size,
    extractions :=
      ((orderByCreatedAtDesc db).drop ((page - 1) * page_size)).take page_size }

/-- Embedding of `ExtractionService.get_extraction` (extraction_service.py lines 108-125):
first record with the given document id, if any. -/
def getExtraction (db : List Extraction) (documentId : List Char) : Option Extraction :=
  db.find? (fun e => e.document_id == documentId)

example :
    mockExtraction ("alpha beta".toList) =
      [ Json.obj
          [ ("clause_type".toList, Json.str ("General Terms".toList)),
            ("content".toList, Json.str ("alpha beta".toList)),
            ("page_number".toList, Json.num 1) ],
        Json.obj
          [ ("clause_type".toList, Json.str ("Obligations".toList)),
            ("content".toList, Json.str []),
            ("page_number".toList, Json.num 1) ] ] := by
  rfl

/-! ## Helper lemmas about token windows -/

lemma take_hundred_take_thirty {α : Type} (ws : List α) :
    (ws.take 100).take 30 = ws.take 30 := by
  rw [List.take_take]
  norm_num

lemma take_hundred_drop_thirty_take {α : Type} (ws : List α) :
    ((ws.take 100).drop 30).take 30 = (ws.drop 30).take 30 := by
  rw [List.drop_take, List.take_take]
  norm_num

lemma mock_first_content (ws : List (List Char)) :
    (if 30 ≤ (ws.take 100).length then joinSpace ((ws.take 100).take 30)
     else joinSpace (ws.take 100)) = joinSpace (ws.take 30) := by
  by_cases h : 30 ≤ (ws.take 100).length
  · rw [if_pos h, take_hundred_take_thirty]
  · rw [if_neg h]
    rw [List.length_take] at h
    have hlen : ws.length < 30 := by omega
    rw [List.take_of_length_le (by omega), List.take_of_length_le (by omega)]

lemma mock_second_content (ws : List (List Char)) :
    (if 60 ≤ (ws.take 100).length then joinSpace (((ws.take 100).drop 30).take 30)
     else joinSpace ((ws.take 100).drop 30)) = joinSpace ((ws.drop 30).take 30) := by
  by_cases h : 60 ≤ (ws.take 100).length
  · rw [if_pos h, take_hundred_drop_thirty_take]
  · rw [if_neg h]
    rw [List.length_take] at h
    have hlen : ws.length < 60 := by omega
    rw [List.take_of_length_le (show ws.length ≤ 100 by omega)]
    rw [List.take_of_length_le (show (ws.drop 30).length ≤ 30 by rw [List.length_drop]; omega)]

/-- C2: mock extraction returns exactly two clauses, "General Terms" holding
the space-join of tokens [0,30) and "Obligations" the space-join of tokens
[30,60), both with page_number 1; when the text has fewer than 30 tokens the
first window is all tokens and the second is empty, and with 30-59 tokens the
second window is tokens [30,len). The output is a pure function of the text. -/
theorem mock_extraction_token_windows (text : List Char) :
    mockExtraction text =
      [ Json.obj
          [ (("clause_type").toList, Json.str (("General Terms").toList)),
            (("content").toList, Json.str (joinSpace ((pySplit text).take 30))),
            (("page_number").toList, Json.num 1) ],
        Json.obj
          [ (("clause_type").toList, Json.str (("Obligations").toList)),
            (("content").toList, Json.str (joinSpace (((pySplit text).drop 30).take 30))),
            (("page_number").toList, Json.num 1) ] ] ∧
    ((pySplit text).length < 30 →
      (pySplit text).take 30 = pySplit text ∧ ((pySplit text).drop 30).take 30 = []) ∧
    (30 ≤ (pySplit text).length → (pySplit text).length < 60 →
      ((pySplit text).drop 30).take 30 = (pySplit text).drop 30) := by
  refine ⟨?_, ?_, ?_⟩
  · simp only [mockExtraction, mock_first_content, mock_second_content]
  · intro h
    refine ⟨List.take_of_length_le (by omega), ?_⟩
    rw [List.drop_eq_nil_of_le (by omega)]
    rfl
  · intro h30 h60
    exact List.take_of_length_le (by rw [List.length_drop]; omega)

theorem mock_extraction_token_windows_witness :
    mockExtraction (("lorem ipsum dolor").toList) =
      [ Json.obj
          [ (("clause_type").toList, Json.str (("General Terms").toList)),
            (("content").toList,
              Json.str (joinSpace ((pySplit (("lorem ipsum dolor").toList)).take 30))),
            (("page_number").toList, Json.num 1) ],
        Json.obj
          [ (("clause_type").toList, Json.str (("Obligations").toList)),
            (("content").toList,
              Json.str (joinSpace (((pySplit (("lorem ipsum dolor").toList)).drop 30).take 30))),
            (("page_number").toList, Json.num 1) ] ] ∧
    (pySplit (("lorem ipsum dolor").toList)).take 30 = pySplit (("lorem ipsum dolor").toList) ∧
    ((pySplit (("lorem ipsum dolor").toList)).drop 30).take 30 = [] := by
  have h := mock_extraction_token_windows (("lorem ipsum dolor").toList)
  have hlt : (pySplit (("lorem ipsum dolor").toList)).length < 30 := by decide
  exact ⟨h.1, (h.2.1 hlt).1, (h.2.1 hlt).2⟩

/-- C3: for either supported provider, an absent/empty credential yields an
unconfigured client, and extraction then returns exactly the mock output
without invoking any transport and without an error. -/
theorem unconfigured_provider_uses_mock (cfg : Settings) (text : List Char)
    (tO : List Char → Except (List Char) (List Json))
    (tG : List Char → Except (List Char) (List Char)) :
    (cfg.openai_api_key = [] →
      ∃ st, initLLMService (("openai").toList) cfg = .ok st ∧
        extractClauses st tO tG text = (.ok (mockExtraction text), false)) ∧
    (cfg.gemini_api_key = [] →
      ∃ st, initLLMService (("gemini").toList) cfg = .ok st ∧
        extractClauses st tO tG text = (.ok (mockExtraction text), false)) := by
  constructor
  · intro h
    refine ⟨_, rfl, ?_⟩
    simp [extractClauses, initLLMService, h]
  · intro h
    refine ⟨_, rfl, ?_⟩
    simp [extractClauses, initLLMService, h]

theorem unconfigured_provider_uses_mock_witness :
    ∃ st, initLLMService (("openai").toList) defaultSettings = .ok st ∧
      extractClauses st (fun _ => .error []) (fun _ => .error []) (("some contract").toList) =
        (.ok (mockExtraction (("some contract").toList)), false) :=
  (unconfigured_provider_uses_mock defaultSettings (("some contract").toList)
    (fun _ => .error []) (fun _ => .error [])).1 rfl

/-- C7: constructing the service for an identifier outside
`{"openai", "gemini"}` fails with the unsupported-provider error, while both
supported identifiers construct successfully for every configuration. -/
theorem unsupported_provider_rejected (cfg : Settings) :
    initLLMService (("carrier-x").toList) cfg =
      .error (.unsupportedProvider (("carrier-x").toList)) ∧
    (∃ st, initLLMService (("openai").toList) cfg = .ok st) ∧
    (∃ st, initLLMService (("gemini").toList) cfg = .ok st) := by
  exact ⟨rfl, ⟨_, rfl⟩, ⟨_, rfl⟩⟩

/-- C5: processing persists only after both extraction steps succeed — a PDF
failure or an LLM failure propagates unmodified with the storage state
untouched, and more generally every failing run leaves the storage unchanged. -/
theorem process_contract_no_partial_persist
    (pdfStep : List Nat → Except PipelineError PdfData)
    (llmStep : List Char → Except PipelineError (List Json))
    (insertStep : Extraction → List Extraction → Except PipelineError (List Extraction))
    (fileContent : List Nat) (filename provider documentId timestamp : List Char)
    (now : Nat) (db : List Extraction) :
    (∀ e, pdfStep fileContent = .error e →
      processContract pdfStep llmStep insertStep fileContent filename provider
        documentId timestamp now db = (.error e, db)) ∧
    (∀ pd e, pdfStep fileContent = .ok pd → llmStep pd.text = .error e →
      processContract pdfStep llmStep insertStep fileContent filename provider
        documentId timestamp now db = (.error e, db)) ∧
    (∀ e db'', processContract pdfStep llmStep insertStep fileContent filename provider
        documentId timestamp now db = (.error e, db'') → db'' = db) := by
  refine ⟨?_, ?_, ?_⟩
  · intro e he
    simp [processContract, he]
  · intro pd e hpd he
    simp [processContract, hpd, he]
  · intro e db'' h
    unfold processContract at h
    split at h
    · simp_all
    · split at h
      · simp_all
      · simp only [] at h
        split at h <;> simp_all

theorem process_contract_no_partial_persist_witness :
    processContract (fun _ => .error (.documentProcessing (("bad pdf").toList)))
      (fun _ => .ok []) (fun e db => .ok (db ++ [e]))
      [] (("f.pdf").toList) (("openai").toList) (("doc-1").toList) (("t0").toList) 0 [] =
      (.error (.documentProcessing (("bad pdf").toList)), []) :=
  (process_contract_no_partial_persist
    (fun _ => .error (.documentProcessing (("bad pdf").toList)))
    (fun _ => .ok []) (fun e db => .ok (db ++ [e]))
    [] (("f.pdf").toList) (("openai").toList) (("doc-1").toList) (("t0").toList) 0 []).1
    _ rfl

/-- C8: a successfully created extraction carries a metadata mapping equal to
the PDF metadata extended with the extraction timestamp, a clause count equal
to the length of the clause list, and the provider identifier; each of the
three appended fields is what a lookup returns (the PDF metadata keys are
disjoint from the three appended keys). -/
theorem extraction_metadata_invariant
    (pdfStep : List Nat → Except PipelineError PdfData)
    (llmStep : List Char → Except PipelineError (List Json))
    (insertStep : Extraction → List Extraction → Except PipelineError (List Extraction))
    (fileContent : List Nat) (filename provider documentId timestamp : List Char)
    (now : Nat) (db : List Extraction) (pd : PdfData) (ex : Extraction)
    (db' : List Extraction)
    (hpdf : pdfStep fileContent = .ok pd)
    (hct : pd.metadata.lookup (("clause_count").toList) = none)
    (hpv : pd.metadata.lookup (("provider").toList) = none)
    (hts : pd.metadata.lookup (("extraction_timestamp").toList) = none)
    (hres : processContract pdfStep llmStep insertStep fileContent filename provider
      documentId timestamp now db = (.ok ex, db')) :
    ex.doc_metadata = pd.metadata ++
      [ (("extraction_timestamp").toList, Json.str timestamp),
        (("clause_count").toList, Json.num (ex.clauses.length : Int)),
        (("provider").toList, Json.str provider) ] ∧
    ex.doc_metadata.lookup (("clause_count").toList) =
      some (Json.num (ex.clauses.length : Int)) ∧
    ex.doc_metadata.lookup (("provider").toList) = some (Json.str provider) ∧
    ex.doc_metadata.lookup (("extraction_timestamp").toList) =
      some (Json.str timestamp) := by
  unfold processContract at hres
  simp only [hpdf] at hres
  rcases hl : llmStep pd.text with e | clauses
  · simp only [hl] at hres
    exact absurd hres (by simp)
  · simp only [hl] at hres
    split at hres
    · exact absurd hres (by simp)
    · simp only [Prod.mk.injEq, Except.ok.injEq] at hres
      obtain ⟨hex, -⟩ := hres
      subst hex
      refine ⟨rfl, ?_, ?_, ?_⟩ <;>
        simp only [List.lookup_append, hct, hpv, hts, Option.none_or] <;> rfl

theorem extraction_metadata_invariant_witness :
    ∃ ex db',
      processContract (fun _ => .ok (extractTextFromPdf [("hi").toList] none))
        (fun t => .ok (mockExtraction t)) (fun e db => .ok (db ++ [e]))
        [] (("f.pdf").toList) (("openai").toList) (("doc-1").toList) (("t0").toList) 0 []
        = (.ok ex, db') ∧
      ex.doc_metadata.lookup (("clause_count").toList) =
        some (Json.num (ex.clauses.length : Int)) ∧
      ex.doc_metadata.lookup (("provider").toList) =
        some (Json.str (("openai").toList)) := by
  have h := extraction_metadata_invariant
    (fun _ => .ok (extractTextFromPdf [("hi").toList] none))
    (fun t => .ok (mockExtraction t)) (fun e db => .ok (db ++ [e]))
    [] (("f.pdf").toList) (("openai").toList) (("doc-1").toList) (("t0").toList) 0 []
    (extractTextFromPdf [("hi").toList] none) _ _ rfl rfl rfl rfl rfl
  exact ⟨_, _, rfl, h.2.1, h.2.2.1⟩

/-! ## Ordering lemmas for the listing endpoint -/

lemma perm_insertByCreatedDesc (x : Extraction) (l : List Extraction) :
    List.Perm (insertByCreatedDesc x l) (x :: l) := by
  induction l with
  | nil => exact List.Perm.refl _
  | cons y ys ih =>
    rw [insertByCreatedDesc]
    by_cases hc : x.created_at ≤ y.created_at
    · rw [if_pos hc]
      exact (ih.cons y).trans (List.Perm.swap x y ys)
    · rw [if_neg hc]

lemma mem_insertByCreatedDesc {a x : Extraction} {l : List Extraction}
    (h : a ∈ insertByCreatedDesc x l) : a = x ∨ a ∈ l := by
  have := (perm_insertByCreatedDesc x l).mem_iff.mp h
  simpa using this

lemma pairwise_insertByCreatedDesc (x : Extraction) (l : List Extraction)
    (h : l.Pairwise (fun a b => b.created_at ≤ a.created_at)) :
    (insertByCreatedDesc x l).Pairwise (fun a b => b.created_at ≤ a.created_at) := by
  induction l with
  | nil => simp [insertByCreatedDesc]
  | cons y ys ih =>
    rw [List.pairwise_cons] at h
    rw [insertByCreatedDesc]
    by_cases hc : x.created_at ≤ y.created_at
    · rw [if_pos hc]
      rw [List.pairwise_cons]
      refine ⟨?_, ih h.2⟩
      intro a ha
      rcases mem_insertByCreatedDesc ha with rfl | ha'
      · exact hc
      · exact h.1 a ha'
    · rw [if_neg hc]
      rw [List.pairwise_cons]
      refine ⟨?_, List.pairwise_cons.mpr h⟩
      intro a ha
      rcases List.mem_cons.mp ha with rfl | ha'
      · omega
      · exact le_trans (h.1 a ha') (by omega)

lemma orderByCreatedAtDesc_perm (db : List Extraction) :
    List.Perm (orderByCreatedAtDesc db) db := by
  induction db with
  | nil => exact List.Perm.refl _
  | cons x xs ih =>
    exact (perm_insertByCreatedDesc x (orderByCreatedAtDesc xs)).trans (ih.cons x)

lemma orderByCreatedAtDesc_pairwise (db : List Extraction) :
    (orderByCreatedAtDesc db).Pairwise (fun a b => b.created_at ≤ a.created_at) := by
  induction db with
  | nil => simp [orderByCreatedAtDesc]
  | cons x xs ih => exact pairwise_insertByCreatedDesc x _ ih

/-- C6: the listing returns the records ordered by creation time descending,
skipping `(page-1)*page_size` and returning at most `page_size` of them, over
a permutation of the whole store; the reported total is the full record count
independent of the requested window. -/
theorem list_extractions_pagination (db : List Extraction) (page page_size : Nat)
    (hp : 1 ≤ page) (hs : 1 ≤ page_size) :
    (listExtractions db page page_size).total = db.length ∧
    (listExtractions db page page_size).extractions =
      ((orderByCreatedAtDesc db).drop ((page - 1) * page_size)).take page_size ∧
    (listExtractions db page page_size).extractions.length ≤ page_size ∧
    (listExtractions db page page_size).extractions.Pairwise
      (fun a b => b.created_at ≤ a.created_at) ∧
    List.Perm (orderByCreatedAtDesc db) db := by
  refine ⟨rfl, rfl, ?_, ?_, orderByCreatedAtDesc_perm db⟩
  · show (((orderByCreatedAtDesc db).drop ((page - 1) * page_size)).take page_size).length ≤ page_size
    rw [List.length_take]
    omega
  · show (((orderByCreatedAtDesc db).drop ((page - 1) * page_size)).take page_size).Pairwise _
    exact (orderByCreatedAtDesc_pairwise db).sublist
      ((List.take_sublist _ _).trans (List.drop_sublist _ _))

theorem list_extractions_pagination_witness :
    (listExtractions
      [ { document_id := ("a").toList, filename := [], clauses := [],
          doc_metadata := [], created_at := 5 },
        { document_id := ("b").toList, filename := [], clauses := [],
          doc_metadata := [], created_at := 9 },
        { document_id := ("c").toList, filename := [], clauses := [],
          doc_metadata := [], created_at := 7 } ] 1 2).total =
      ([ { document_id := ("a").toList, filename := [], clauses := [],
           doc_metadata := [], created_at := 5 },
         { document_id := ("b").toList, filename := [], clauses := [],
           doc_metadata := [], created_at := 9 },
         { document_id := ("c").toList, filename := [], clauses := [],
           doc_metadata := [], created_at := 7 } ] : List Extraction).length ∧
    (listExtractions
      [ { document_id := ("a").toList, filename := [], clauses := [],
          doc_metadata := [], created_at := 5 },
        { document_id := ("b").toList, filename := [], clauses := [],
          doc_metadata := [], created_at := 9 },
        { document_id := ("c").toList, filename := [], clauses := [],
          doc_metadata := [], created_at := 7 } ] 1 2).extractions.Pairwise
      (fun a b => b.created_at ≤ a.created_at) := by
  have h := list_extractions_pagination
    [ { document_id := ("a").toList, filename := [], clauses := [],
        doc_metadata := [], created_at := 5 },
      { document_id := ("b").toList, filename := [], clauses := [],
        doc_metadata := [], created_at := 9 },
      { document_id := ("c").toList, filename := [], clauses := [],
        doc_metadata := [], created_at := 7 } ] 1 2 (by omega) (by omega)
  exact ⟨h.1, h.2.2.2.1⟩

/-! ## PDF text construction -/

lemma pyStrip_eq_nil_iff (l : List Char) :
    pyStrip l = [] ↔ ∀ c ∈ l, pyIsSpace c = true := by
  unfold pyStrip
  rw [List.reverse_eq_nil_iff, List.dropWhile_eq_nil_iff]
  constructor
  · intro h c hc
    have hc' : c ∈ List.takeWhile pyIsSpace l ++ List.dropWhile pyIsSpace l := by
      rw [List.takeWhile_append_dropWhile]
      exact hc
    rcases List.mem_append.mp hc' with h1 | h2
    · exact List.mem_takeWhile_imp h1
    · exact h c (List.mem_reverse.mpr h2)
  · intro h c hc
    exact h c (List.Sublist.mem (List.mem_reverse.mp hc) (List.dropWhile_sublist pyIsSpace))

lemma buildPdfTextAux_eq (pages : List (List Char)) :
    ∀ (n : Nat) (acc : List Char),
      buildPdfTextAux acc n pages =
        acc ++ (List.zipWith (fun i p => pageMarker i ++ p)
          (List.range' n pages.length) pages).flatten := by
  induction pages with
  | nil => intro n acc; simp [buildPdfTextAux]
  | cons p ps ih =>
    intro n acc
    rw [show (p :: ps).length = ps.length + 1 from rfl, List.range'_succ]
    rw [List.zipWith_cons_cons, List.flatten_cons]
    show buildPdfTextAux (acc ++ pageMarker n ++ p) (n + 1) ps = _
    rw [ih (n + 1) (acc ++ pageMarker n ++ p)]
    simp [List.append_assoc]

/-- C9 counterexample: a one-page PDF whose single page holds no text at all
still gets `has_text = True`, because the page-boundary marker the code
prepends is itself non-whitespace. -/
theorem pdf_has_text_counterexample :
    ¬ ((extractTextFromPdf [[]] none).metadata.lookup (("has_text").toList) =
          some (Json.bool true) ↔
        ∃ p ∈ ([[]] : List (List Char)), pyStrip p ≠ []) := by
  intro h
  rcases h.mp rfl with ⟨p, hp, hne⟩
  rw [List.mem_singleton] at hp
  subst hp
  exact hne rfl

/-- C9 (amended): the extracted text is the concatenation of the page texts,
each prefixed with its 1-indexed page-boundary marker; `has_text` is true
exactly when the marker-bearing text is non-empty after trimming, which (the
markers being non-whitespace) holds precisely when the document has at least
one page; `page_count` records the number of pages. -/
theorem pdf_text_and_has_text (pages : List (List Char)) (biblio : Option PdfBiblio) :
    (extractTextFromPdf pages biblio).text =
      (List.zipWith (fun i p => pageMarker i ++ p)
        (List.range' 1 pages.length) pages).flatten ∧
    ((extractTextFromPdf pages biblio).metadata.lookup (("has_text").toList) =
        some (Json.bool true) ↔ pages ≠ []) ∧
    (extractTextFromPdf pages biblio).metadata.lookup (("page_count").toList) =
      some (Json.num (pages.length : Int)) := by
  refine ⟨?_, ?_, rfl⟩
  · show buildPdfText pages = _
    rw [buildPdfText, buildPdfTextAux_eq pages 1 []]
    rfl
  · have hl : (extractTextFromPdf pages biblio).metadata.lookup (("has_text").toList) =
        some (Json.bool (pdfHasText pages)) := by
      rcases biblio with _ | b <;> rfl
    rw [hl]
    constructor
    · intro h hnil
      subst hnil
      have hb : Json.bool false = Json.bool true := Option.some.inj h
      injection hb with hb'
      exact Bool.noConfusion hb'
    · intro hne
      rcases pages with _ | ⟨p, ps⟩
      · exact absurd rfl hne
      · suffices hpt : pdfHasText (p :: ps) = true by rw [hpt]
        have hmem : '-' ∈ buildPdfText (p :: ps) := by
          rw [buildPdfText, buildPdfTextAux_eq (p :: ps) 1 []]
          rw [show (p :: ps).length = ps.length + 1 from rfl, List.range'_succ]
          rw [List.zipWith_cons_cons, List.flatten_cons]
          simp only [List.nil_append, List.append_assoc]
          refine List.mem_append.mpr (Or.inl ?_)
          decide
        have hns : pyStrip (buildPdfText (p :: ps)) ≠ [] := by
          intro hnil
          have hall := (pyStrip_eq_nil_iff _).mp hnil '-' hmem
          exact absurd hall (by decide)
        unfold pdfHasText
        rw [Bool.not_eq_true', List.isEmpty_eq_false]
        exact hns

/-! ## Locating brackets for the tolerant parser -/

lemma pyFindNat_getElem (l : List Char) (c : Char) :
    ∀ i, pyFindNat l c = some i → l[i]? = some c := by
  induction l with
  | nil => intro i h; simp [pyFindNat] at h
  | cons x xs ih =>
    intro i h
    rw [pyFindNat] at h
    by_cases hx : x = c
    · rw [if_pos hx] at h
      have h0 : (0 : Nat) = i := Option.some.inj h
      subst h0
      simp [hx]
    · rw [if_neg hx] at h
      rcases Option.map_eq_some'.mp h with ⟨j, hj, hji⟩
      subst hji
      rw [List.getElem?_cons_succ]
      exact ih j hj

lemma pyFindNat_lt (l : List Char) (c : Char) (i : Nat)
    (h : pyFindNat l c = some i) : i < l.length :=
  (List.getElem?_eq_some_iff.mp (pyFindNat_getElem l c i h)).1

lemma pyRfindNat_getElem (l : List Char) (c : Char) (p : Nat)
    (h : pyRfindNat l c = some p) : p < l.length ∧ l[p]? = some c := by
  rw [pyRfindNat] at h
  rcases Option.map_eq_some'.mp h with ⟨j, hj, hjp⟩
  have hjl : j < l.length := by
    have := pyFindNat_lt _ _ _ hj
    rwa [List.length_reverse] at this
  have hrev := pyFindNat_getElem _ _ _ hj
  rw [List.getElem?_reverse hjl] at hrev
  subst hjp
  exact ⟨by omega, hrev⟩

lemma pyNormIdx_of_le (n k : Nat) (h : k ≤ n) : pyNormIdx n (k : Int) = k := by
  unfold pyNormIdx
  split <;> omega

lemma pySlice_eq (l : List Char) (a b : Nat) (ha : a ≤ l.length) (hb : b ≤ l.length) :
    pySlice l (a : Int) (b : Int) = (l.take b).drop a := by
  unfold pySlice
  rw [pyNormIdx_of_le _ _ ha, pyNormIdx_of_le _ _ hb]

/-- C1: the tolerant response parser finds the first `[` and the last `]`;
with no `[`, no `]`, or the last `]` before the first `[` it returns the empty
list; with a well-placed pair it decodes the enclosed slice as JSON and
returns the array's entries, and a decode failure again yields the empty list
(the parser is a total function: no input raises). -/
theorem tolerant_parse_response_spec (resp : List Char) :
    (pyFindNat resp '[' = none → parseLlmResponse resp = []) ∧
    (pyRfindNat resp ']' = none → parseLlmResponse resp = []) ∧
    (∀ s p, pyFindNat resp '[' = some s → pyRfindNat resp ']' = some p → p ≠ s) ∧
    (∀ s p, pyFindNat resp '[' = some s → pyRfindNat resp ']' = some p → p < s →
      parseLlmResponse resp = []) ∧
    (∀ s p xs, pyFindNat resp '[' = some s → pyRfindNat resp ']' = some p → s < p →
      jsonLoads ((resp.take (p + 1)).drop s) = some (Json.arr xs) →
      parseLlmResponse resp = xs) ∧
    (∀ s p, pyFindNat resp '[' = some s → pyRfindNat resp ']' = some p → s < p →
      jsonLoads ((resp.take (p + 1)).drop s) = none →
      parseLlmResponse resp = []) := by
  refine ⟨?_, ?_, ?_, ?_, ?_, ?_⟩
  · intro h
    simp only [parseLlmResponse, pyFind, h, Option.elim]
    rw [if_neg]
    rintro ⟨h1, -⟩
    exact h1 rfl
  · intro h
    rcases hf : pyFindNat resp '[' with _ | s
    · simp only [parseLlmResponse, pyFind, hf, Option.elim]
      rw [if_neg]
      rintro ⟨h1, -⟩
      exact h1 rfl
    · simp only [parseLlmResponse, pyFind, pyRfind, hf, h, Option.elim]
      rw [if_neg]
      rintro ⟨-, h2⟩
      omega
  · intro s p hf hr hps
    have h1 := pyFindNat_getElem resp '[' s hf
    have h2 := (pyRfindNat_getElem resp ']' p hr).2
    rw [hps] at h2
    have := Option.some.inj (h1.symm.trans h2)
    exact absurd this (by decide)
  · intro s p hf hr hps
    simp only [parseLlmResponse, pyFind, pyRfind, hf, hr, Option.elim]
    rw [if_neg]
    rintro ⟨-, h2⟩
    omega
  · intro s p xs hf hr hsp hload
    have hple : p < resp.length := (pyRfindNat_getElem resp ']' p hr).1
    simp only [parseLlmResponse, pyFind, pyRfind, hf, hr, Option.elim]
    rw [if_pos ⟨by omega, by omega⟩]
    have hcast : ((p : Int) + 1) = ((p + 1 : Nat) : Int) := by push_cast; ring
    rw [hcast, pySlice_eq resp s (p + 1) (by omega) (by omega), hload]
  · intro s p hf hr hsp hload
    have hple : p < resp.length := (pyRfindNat_getElem resp ']' p hr).1
    simp only [parseLlmResponse, pyFind, pyRfind, hf, hr, Option.elim]
    rw [if_pos ⟨by omega, by omega⟩]
    have hcast : ((p : Int) + 1) = ((p + 1 : Nat) : Int) := by push_cast; ring
    rw [hcast, pySlice_eq resp s (p + 1) (by omega) (by omega), hload]

theorem tolerant_parse_response_spec_witness :
    pyFindNat (("ok [1, 2] done").toList) '[' = some 3 ∧
    pyRfindNat (("ok [1, 2] done").toList) ']' = some 8 ∧
    jsonLoads (((("ok [1, 2] done").toList).take 9).drop 3) =
      some (Json.arr [Json.num 1, Json.num 2]) ∧
    parseLlmResponse (("ok [1, 2] done").toList) = [Json.num 1, Json.num 2] := by
  refine ⟨rfl, rfl, rfl, ?_⟩
  exact (tolerant_parse_response_spec _).2.2.2.2.1 3 8 [Json.num 1, Json.num 2]
    rfl rfl (by omega) rfl

/-- A clause-shaped object in the sense of the response schema: a JSON object
carrying at least `clause_type` and `content` fields. The tolerant parser
never checks this. -/
def isClauseShaped (j : Json) : Bool :=
  match j with
  | .obj fields =>
    ((fields.lookup (("clause_type").toList)).isSome) &&
    ((fields.lookup (("content").toList)).isSome)
  | _ => false

/-- C10: a well-bracketed JSON array in the provider's free-text response is
returned entirely unvalidated — here none of the decoded entries (a number, a
string, an object without the clause fields) is clause-shaped — and those
entries propagate unchanged as the successful result of clause extraction on
the Gemini path. -/
theorem unvalidated_entries_propagate :
    parseLlmResponse (("Sure: [1, \"two\", \x7b\"foo\": 3\x7d]").toList) =
      [Json.num 1, Json.str (("two").toList),
       Json.obj [((("foo").toList), Json.num 3)]] ∧
    (∀ j ∈ parseLlmResponse (("Sure: [1, \"two\", \x7b\"foo\": 3\x7d]").toList),
      isClauseShaped j = false) ∧
    (∃ st, initLLMService (("gemini").toList)
        { defaultSettings with gemini_api_key := ("k").toList } = .ok st ∧
      extractClauses st (fun _ => .error [])
        (fun _ => .ok (("Sure: [1, \"two\", \x7b\"foo\": 3\x7d]").toList))
        (("doc").toList) =
        (.ok [Json.num 1, Json.str (("two").toList),
              Json.obj [((("foo").toList), Json.num 3)]], true)) := by
  refine ⟨rfl, ?_, ⟨_, rfl, rfl⟩⟩
  intro j hj
  have h1 : parseLlmResponse (("Sure: [1, \"two\", \x7b\"foo\": 3\x7d]").toList) =
      [Json.num 1, Json.str (("two").toList),
       Json.obj [((("foo").toList), Json.num 3)]] := rfl
  rw [h1] at hj
  simp only [List.mem_cons, List.not_mem_nil, or_false] at hj
  rcases hj with rfl | rfl | rfl <;> rfl

theorem unvalidated_entries_propagate_witness :
    isClauseShaped (Json.num 1) = false := by
  have h := unvalidated_entries_propagate
  refine h.2.1 (Json.num 1) ?_
  rw [h.1]
  exact List.mem_cons_self _ _

/-! ## Substring machinery for the Gemini prompt-splitting behaviour -/

lemma isPrefixOf_eq_true_iff (l m : List Char) :
    l.isPrefixOf m = true ↔ l <+: m := by
  induction l generalizing m with
  | nil =>
    constructor
    · intro _
      exact ⟨m, rfl⟩
    · intro _
      cases m <;> rfl
  | cons c l' ih =>
    cases m with
    | nil =>
      constructor
      · intro h
        simp [List.isPrefixOf] at h
      · rintro ⟨t, ht⟩
        exact absurd ht (List.cons_ne_nil _ _)
    | cons d m' =>
      show ((c == d) && l'.isPrefixOf m') = true ↔ _
      rw [Bool.and_eq_true, beq_iff_eq, ih, List.cons_prefix_cons]

lemma isPrefixOf_append_of_le (l a b : List Char) (h : l.length ≤ a.length) :
    l.isPrefixOf (a ++ b) = l.isPrefixOf a := by
  rw [Bool.eq_iff_iff, isPrefixOf_eq_true_iff, isPrefixOf_eq_true_iff]
  constructor
  · rintro ⟨t, ht⟩
    refine ⟨a.drop l.length, ?_⟩
    have h1 : l = (a ++ b).take l.length := by rw [← ht, List.take_left]
    have h2 : l = a.take l.length := h1.trans (List.take_append_of_le_length h)
    nth_rewrite 1 [h2]
    exact List.take_append_drop _ _
  · rintro ⟨t, rfl⟩
    exact ⟨t ++ b, by rw [List.append_assoc]⟩

lemma containsSub_iff (n hay : List Char) :
    containsSub n hay = true ↔ n <:+: hay := by
  induction hay with
  | nil =>
    show n.isEmpty = true ↔ _
    rw [List.isEmpty_iff]
    constructor
    · rintro rfl
      exact ⟨[], [], rfl⟩
    · rintro ⟨s, t, hst⟩
      simp only [List.append_eq_nil] at hst
      exact hst.1.2
  | cons c rest ih =>
    show (n.isPrefixOf (c :: rest) || containsSub n rest) = true ↔ _
    rw [Bool.or_eq_true, ih, isPrefixOf_eq_true_iff, List.infix_cons_iff]

/-- Decidable check: no position strictly inside `x` starts a match of `sep`,
even when `sep` itself is appended right after `x`. -/
def noEarlyHit (sep x : List Char) : Bool :=
  (List.range x.length).all fun i => !(sep.isPrefixOf (x.drop i ++ sep))

lemma noEarlyHit_spec (sep x : List Char) (h : noEarlyHit sep x = true) :
    ∀ i, i < x.length → sep.isPrefixOf (x.drop i ++ sep) = false := by
  intro i hi
  have := List.all_eq_true.mp h i (List.mem_range.mpr hi)
  simpa using this

lemma splitOnAux_no_match (s : Char) (ss : List Char) (l : List Char) :
    ∀ (fuel : Nat) (acc : List Char), l.length < fuel → ¬ ((s :: ss) <:+: l) →
      pySplitOnAux s ss fuel acc l = [acc.reverse ++ l] := by
  induction l with
  | nil =>
    intro fuel acc hf _
    rcases fuel with _ | f
    · omega
    · simp [pySplitOnAux]
  | cons c rest ih =>
    intro fuel acc hf hinf
    rcases fuel with _ | f
    · omega
    · show pySplitOnAux s ss (f + 1) acc (c :: rest) = _
      have hnp : (s :: ss).isPrefixOf (c :: rest) = false := by
        cases hp : (s :: ss).isPrefixOf (c :: rest)
        · rfl
        · rcases (isPrefixOf_eq_true_iff _ _).mp hp with ⟨t, ht⟩
          exact absurd ⟨[], t, by simpa using ht⟩ hinf
      rw [pySplitOnAux, if_neg (by simp [hnp])]
      rw [ih f (c :: acc) (by simp only [List.length_cons] at hf; omega)
        (fun h => hinf (List.infix_cons_iff.mpr (Or.inr h)))]
      simp [List.reverse_cons, List.append_assoc]

lemma splitOnAux_scan (s : Char) (ss r x : List Char) :
    ∀ (fuel : Nat) (acc : List Char),
      x.length + 1 + r.length ≤ fuel →
      (∀ i, i < x.length →
        (s :: ss).isPrefixOf ((x.drop i ++ (s :: ss)) ++ r) = false) →
      pySplitOnAux s ss fuel acc ((x ++ (s :: ss)) ++ r) =
        (acc.reverse ++ x) :: pySplitOnAux s ss (fuel - (x.length + 1)) [] r := by
  induction x with
  | nil =>
    intro fuel acc hf _
    rcases fuel with _ | f
    · omega
    · show pySplitOnAux s ss (f + 1) acc (s :: (ss ++ r)) = _
      have hpp : (s :: ss).isPrefixOf (s :: (ss ++ r)) = true := by
        rw [isPrefixOf_eq_true_iff]
        exact ⟨r, rfl⟩
      rw [pySplitOnAux, if_pos hpp, List.drop_left]
      simp
  | cons y x' ih =>
    intro fuel acc hf hx
    rcases fuel with _ | f
    · simp only [List.length_cons] at hf
      omega
    · show pySplitOnAux s ss (f + 1) acc (y :: ((x' ++ (s :: ss)) ++ r)) = _
      have h0 : (s :: ss).isPrefixOf (y :: ((x' ++ (s :: ss)) ++ r)) = false := by
        have := hx 0 (by simp)
        simpa [List.cons_append] using this
      rw [pySplitOnAux, if_neg (by rw [h0]; simp)]
      rw [ih f (y :: acc)
        (by simp only [List.length_cons] at hf ⊢; omega)
        (fun i hi => by
          have := hx (i + 1) (by simp only [List.length_cons]; omega)
          simpa [List.drop_succ_cons] using this)]
      have hfe : f - (x'.length + 1) = f + 1 - ((y :: x').length + 1) := by
        simp only [List.length_cons]
        omega
      rw [hfe]
      simp [List.reverse_cons, List.append_assoc]

lemma pySplitOn_parts (s : Char) (ss x r : List Char)
    (hx : ∀ i, i < x.length →
      (s :: ss).isPrefixOf ((x.drop i ++ (s :: ss)) ++ r) = false)
    (hr : ¬ ((s :: ss) <:+: r)) :
    pySplitOn (s :: ss) ((x ++ (s :: ss)) ++ r) = [x, r] := by
  show pySplitOnAux s ss (((x ++ (s :: ss)) ++ r).length + 1) [] ((x ++ (s :: ss)) ++ r) = _
  rw [splitOnAux_scan s ss r x _ []
    (by simp only [List.length_append, List.length_cons]; omega) hx]
  rw [splitOnAux_no_match s ss r _ []
    (by simp only [List.length_append, List.length_cons]; omega) hr]
  simp

lemma not_infix_wrap (M t : List Char) (a b : Char)
    (hM : M ≠ []) (hh : M.head? ≠ some a) (hl : M.getLast? ≠ some b)
    (ht : ¬ M <:+: t) : ¬ M <:+: (a :: (t ++ [b])) := by
  rintro ⟨u, v, huv⟩
  rcases u with _ | ⟨a', u'⟩
  · rcases M with _ | ⟨m0, M'⟩
    · exact hM rfl
    · simp only [List.nil_append, List.cons_append] at huv
      injection huv with h1 _
      exact hh (by simp [h1])
  · simp only [List.cons_append] at huv
    injection huv with h1 h2
    rcases List.eq_nil_or_concat v with rfl | ⟨w, xv, rfl⟩
    · rw [List.append_nil] at h2
      rcases List.eq_nil_or_concat M with rfl | ⟨M₀, mL, rfl⟩
      · exact hM rfl
      · rw [List.concat_eq_append] at h2
        have h3 : (u' ++ M₀) ++ [mL] = t ++ [b] := by
          simpa [List.append_assoc] using h2
        have hinj := List.append_inj' h3 rfl
        have hb : mL = b := by simpa using hinj.2
        apply hl
        rw [List.concat_eq_append, List.getLast?_concat, hb]
    · rw [List.concat_eq_append] at h2
      have h3 : (u' ++ (M ++ w)) ++ [xv] = t ++ [b] := by
        simpa [List.append_assoc] using h2
      have hinj := List.append_inj' h3 rfl
      exact ht ⟨u', w, by simpa [List.append_assoc] using hinj.1⟩

set_option maxRecDepth 40000 in
/-- C4 counterexample: when the document text itself contains the marker
`"Contract text:"`, the Gemini-path prompt split truncates it, and the full
document text is no longer a substring of the free-text prompt sent to the
provider. -/
theorem prompt_truncation_counterexample :
    ¬ ((("A Contract text: B").toList) <:+:
        geminiFullPrompt (createExtractionPrompt (("A Contract text: B").toList))) := by
  intro hinf
  have hc := (containsSub_iff _ _).mpr hinf
  have hfalse : containsSub (("A Contract text: B").toList)
      (geminiFullPrompt (createExtractionPrompt (("A Contract text: B").toList))) =
      false := by rfl
  rw [hfalse] at hc
  exact Bool.noConfusion hc

set_option maxRecDepth 40000 in
/-- C4 (amended): the instruction prompt built from the document always embeds
the full text; on the Gemini free-text path the JSON-describing prompt embeds
the full text as a contiguous substring whenever the text does not itself
contain the marker `"Contract text:"` (when it does, the embedded text is
truncated at the marker, as the counterexample shows). -/
theorem prompt_embeds_document_text (text : List Char) :
    text <:+: createExtractionPrompt text ∧
    (¬ contractTextMarker <:+: text →
      text <:+: geminiFullPrompt (createExtractionPrompt text)) := by
  constructor
  · exact ⟨extractionPromptHead ++ contractTextMarker ++ ['\n'], ['\n'], by
      simp [createExtractionPrompt, List.append_assoc]⟩
  · intro hnot
    have hm : contractTextMarker = 'C' :: (("ontract text:").toList) := rfl
    have hC : noEarlyHit contractTextMarker extractionPromptHead = true := by rfl
    have hx : ∀ i, i < extractionPromptHead.length →
        ('C' :: (("ontract text:").toList)).isPrefixOf
          ((extractionPromptHead.drop i ++ ('C' :: (("ontract text:").toList))) ++
            ('\n' :: (text ++ ['\n']))) = false := by
      intro i hi
      rw [isPrefixOf_append_of_le _ _ _
        (by simp only [List.length_append, List.length_cons]; omega)]
      have hspec := noEarlyHit_spec contractTextMarker extractionPromptHead hC i hi
      rw [hm] at hspec
      exact hspec
    have hrM : ¬ (contractTextMarker <:+: ('\n' :: (text ++ ['\n']))) :=
      not_infix_wrap contractTextMarker text '\n' '\n'
        (by decide) (by decide) (by decide) hnot
    have hdecomp : createExtractionPrompt text =
        (extractionPromptHead ++ contractTextMarker) ++ ('\n' :: (text ++ ['\n'])) := by
      simp [createExtractionPrompt, List.append_assoc]
    have hsplit : pySplitOn contractTextMarker (createExtractionPrompt text) =
        [extractionPromptHead, '\n' :: (text ++ ['\n'])] := by
      rw [hdecomp, hm]
      exact pySplitOn_parts 'C' (("ontract text:").toList) extractionPromptHead
        ('\n' :: (text ++ ['\n'])) hx (hm ▸ hrM)
    have hcontains : containsSub contractTextMarker (createExtractionPrompt text) = true := by
      rw [containsSub_iff]
      exact ⟨extractionPromptHead, '\n' :: (text ++ ['\n']), by
        rw [hdecomp]⟩
    have hgpt : geminiPromptText (createExtractionPrompt text) = '\n' :: (text ++ ['\n']) := by
      unfold geminiPromptText
      rw [if_pos hcontains, hsplit]
      rfl
    unfold geminiFullPrompt
    rw [hgpt]
    refine ⟨geminiSystemHeader ++ extractionPromptHead ++
      (("Return the result as a JSON array of objects with these fields.\n\n").toList) ++
      contractTextMarker ++ ['\n', '\n'],
      '\n' :: (("\n\nReturn only valid JSON in this exact format:\n[\n  \x7b\n    \"clause_type\": \"string\",\n    \"content\": \"string\",\n    \"page_number\": number or null\n  \x7d\n]\n").toList), ?_⟩
    simp [createExtractionPromptJson, List.append_assoc]

theorem prompt_embeds_document_text_witness :
    (("hello world").toList) <:+:
      geminiFullPrompt (createExtractionPrompt (("hello world").toList)) := by
  refine (prompt_embeds_document_text (("hello world").toList)).2 ?_
  intro hinf
  have hc := (containsSub_iff _ _).mpr hinf
  have hfalse : containsSub contractTextMarker (("hello world").toList) = false := rfl
  rw [hfalse] at hc
  exact Bool.noConfusion hc
